import Mathlib

/-!
# Verification of the Smart Finance Dashboard (`dash_new.py`)

A shallow embedding of the logic of the single-file dashboard:
the data loader (`load_data`), the PDF table extractor wrapper
(`process_pdf`), the category detector and budget allocator
(`display_recommendations`), the recommendation generator (the keyword
`if`/`elif` chain in `display_recommendations`), and the chart builder
(`create_dashboard`).

Conventions of the embedding:
* Python floats are modelled as exact rationals (`ℚ`); the spec's
  guarantees are stated "in exact arithmetic".
* A pandas `DataFrame` is a list of named, typed columns (`Dataset`).
* A Python `dict` is an association list with insert-or-overwrite
  semantics that keeps the original insertion position (`dictInsert`),
  matching CPython dict ordering.
* External effects (`st.error`, `st.write`) are modelled as returned
  values: error messages are returned alongside the optional dataset,
  advice lines are returned as a list of strings.
* External parsers (pandas `read_csv`, `tabula.read_pdf`) are out of
  scope per the spec; their results are inputs of the embedded
  functions (an `UploadedFile` carries the result each parser would
  produce, `TabulaResult` models the extractor's outcome including a
  raised exception).
-/

namespace SMF

/-- Column type as pandas stores it: numeric (`int`/`float`) or text
(`object`).  `select_dtypes(include=['object'])` selects `text`;
`select_dtypes(include=["float", "int"])` selects `numeric`. -/
inductive DType where
  | numeric
  | text
deriving DecidableEq, Repr

/-- A cell value: a number, a string, or pandas `NaN` (produced when
concatenating tables with mismatched columns). -/
inductive Value where
  | num (q : ℚ)
  | str (s : String)
  | nan
deriving DecidableEq, Repr

/-- One named, typed column of a DataFrame. -/
structure Column where
  name : String
  dtype : DType
  values : List Value
deriving DecidableEq, Repr

/-- A pandas DataFrame: an ordered sequence of named columns. -/
structure Dataset where
  cols : List Column
deriving DecidableEq, Repr

/-- ASCII `str.lower()`: lower-case every character. -/
def lowerStr (s : String) : String := ⟨s.data.map Char.toLower⟩

/-- Python `needle in hay` on strings: substring test. -/
def strContainsSub (hay needle : String) : Bool :=
  hay.data.tails.any (fun t => needle.data.isPrefixOf t)

/-- Python `hay.endswith(suffix)`: suffix test. -/
def endsWithStr (s suffix : String) : Bool :=
  suffix.data.isSuffixOf s.data

/-- Helper for `pandasUnique`: keep the first occurrence of each
element, remembering what was already seen. -/
def uniqueAux {α : Type} [DecidableEq α] (seen : List α) : List α → List α
  | [] => []
  | x :: xs => if x ∈ seen then uniqueAux seen xs else x :: uniqueAux (x :: seen) xs

/-- pandas `Series.unique()`: distinct elements in order of first
appearance. -/
def pandasUnique {α : Type} [DecidableEq α] (l : List α) : List α :=
  uniqueAux [] l

/-! ## Budget Allocator (`display_recommendations`, lines 100–112)

```python
num_categories = len(priority_categories)
if num_categories > 0:
    allocation = {}
    remaining = 1.0
    for i, category in enumerate(priority_categories):
        if i == num_categories - 1:
            allocation[category] = remaining
        else:
            share = remaining / (num_categories - i)
            allocation[category] = share
            remaining -= share
```
-/

/-- Python `allocation[category] = v` on a dict modelled as an
association list: overwrite in place if the key is present, else append
at the end (CPython dict insertion order). -/
def dictInsert (d : List (String × ℚ)) (k : String) (v : ℚ) : List (String × ℚ) :=
  if k ∈ d.map Prod.fst then
    d.map (fun p => if p.1 = k then (k, v) else p)
  else d ++ [(k, v)]

/-- The allocation loop, recursing on the categories not yet processed.
At loop index `i` the list of unprocessed categories has length
`num_categories - i`, so the Python divisor `num_categories - i` is the
length of the current list; the last iteration (singleton list) assigns
the whole remainder. -/
def allocGo : List (String × ℚ) → ℚ → List String → List (String × ℚ)
  | d, _, [] => d
  | d, remaining, [c] => dictInsert d c remaining
  | d, remaining, c :: rest@(_ :: _) =>
      let share := remaining / ((rest.length : ℚ) + 1)
      allocGo (dictInsert d c share) (remaining - share) rest

/-- The Budget Allocator: the `if num_categories > 0` guard followed by
the loop, starting from the empty dict and `remaining = 1.0`. -/
def budgetAllocator (cats : List String) : List (String × ℚ) :=
  if 0 < cats.length then allocGo [] 1 cats else []

/-! ### Allocator lemmas -/

theorem dictInsert_fresh (d : List (String × ℚ)) (k : String) (v : ℚ)
    (h : k ∉ d.map Prod.fst) : dictInsert d k v = d ++ [(k, v)] := by
  simp [dictInsert, h]

theorem allocGo_fresh_nodup (cs : List String) :
    ∀ (d : List (String × ℚ)) (v : ℚ), cs ≠ [] → cs.Nodup →
    (∀ c ∈ cs, c ∉ d.map Prod.fst) →
    allocGo d (v * (cs.length : ℚ)) cs = d ++ cs.map (fun c => (c, v)) := by
  induction cs with
  | nil => intro d v h; exact absurd rfl h
  | cons c rest ih =>
    intro d v _ hnd hfresh
    match rest, ih with
    | [], _ =>
      simp only [allocGo]
      rw [dictInsert_fresh d c _ (hfresh c (by simp))]
      norm_num
    | r :: rs, ih =>
      have hshare : v * (((c :: r :: rs).length : ℚ)) / (((r :: rs).length : ℚ) + 1) = v := by
        field_simp
      have hcfresh : c ∉ d.map Prod.fst := hfresh c (by simp)
      have hnd' : (r :: rs).Nodup := hnd.of_cons
      have hcnotin : c ∉ r :: rs := (List.nodup_cons.mp hnd).1
      simp only [allocGo, hshare]
      rw [dictInsert_fresh d c v hcfresh]
      have hrem : v * (((c :: r :: rs).length : ℚ)) - v = v * (((r :: rs).length : ℚ)) := by
        push_cast [List.length_cons]
        ring
      rw [hrem]
      rw [ih (d ++ [(c, v)]) v (by simp) hnd' ?_]
      · simp
      · intro x hx
        simp only [List.map_append, List.mem_append, List.map_cons, List.map_nil,
          List.mem_singleton, not_or]
        refine ⟨fun hmem => hfresh x (by simp [hx]) hmem, ?_⟩
        intro hxc
        exact hcnotin (hxc ▸ hx)

/-- With pairwise-distinct labels the allocator is the uniform map
`c ↦ 1 / n`. -/
theorem budgetAllocator_nodup_eq (cats : List String) (hnd : cats.Nodup) :
    budgetAllocator cats = cats.map (fun c => (c, 1 / (cats.length : ℚ))) := by
  cases cats with
  | nil => simp [budgetAllocator]
  | cons c rest =>
    have hne : c :: rest ≠ [] := by simp
    have hlen : ((c :: rest).length : ℚ) ≠ 0 :=
      (Nat.cast_pos.mpr (List.length_pos.mpr hne)).ne'
    have h1 : (1 : ℚ) = (1 / ((c :: rest).length : ℚ)) * ((c :: rest).length : ℚ) := by
      field_simp
    unfold budgetAllocator
    rw [if_pos (by simp)]
    conv_lhs => rw [h1]
    rw [allocGo_fresh_nodup (c :: rest) [] (1 / ((c :: rest).length : ℚ)) hne hnd
      (by simp)]
    simp

theorem dictInsert_map_fst (d : List (String × ℚ)) (k : String) (v : ℚ) :
    (dictInsert d k v).map Prod.fst =
      if k ∈ d.map Prod.fst then d.map Prod.fst else d.map Prod.fst ++ [k] := by
  unfold dictInsert
  split
  · rw [List.map_map]
    apply List.map_congr_left
    intro p _
    by_cases hp : p.1 = k
    · simp [hp]
    · simp [hp]
  · simp

/-- The evolution of the dict's key list over the allocation loop:
insert-if-absent for each category in order. -/
def keyFold : List String → List String → List String
  | ks, [] => ks
  | ks, c :: cs => keyFold (if c ∈ ks then ks else ks ++ [c]) cs

theorem allocGo_map_fst (cs : List String) :
    ∀ (d : List (String × ℚ)) (r : ℚ),
    (allocGo d r cs).map Prod.fst = keyFold (d.map Prod.fst) cs := by
  induction cs with
  | nil => intro d r; simp only [allocGo, keyFold]
  | cons c rest ih =>
    intro d r
    match rest, ih with
    | [], _ =>
      simp only [allocGo, keyFold, dictInsert_map_fst]
    | r' :: rs, ih =>
      simp only [allocGo]
      rw [ih, dictInsert_map_fst]
      conv_rhs => rw [keyFold]

theorem keyFold_toFinset (cs : List String) :
    ∀ ks : List String, (keyFold ks cs).toFinset = ks.toFinset ∪ cs.toFinset := by
  induction cs with
  | nil => intro ks; simp [keyFold]
  | cons c rest ih =>
    intro ks
    simp only [keyFold]
    rw [ih]
    by_cases hc : c ∈ ks
    · rw [if_pos hc]
      ext x
      simp only [Finset.mem_union, List.mem_toFinset, List.mem_cons]
      constructor
      · rintro (h | h)
        · exact Or.inl h
        · exact Or.inr (Or.inr h)
      · rintro (h | rfl | h)
        · exact Or.inl h
        · exact Or.inl hc
        · exact Or.inr h
    · rw [if_neg hc]
      ext x
      simp only [Finset.mem_union, List.mem_toFinset, List.mem_append,
        List.mem_singleton, List.mem_cons]
      tauto

theorem keyFold_nodup (cs : List String) :
    ∀ ks : List String, ks.Nodup → (keyFold ks cs).Nodup := by
  induction cs with
  | nil => intro ks h; exact h
  | cons c rest ih =>
    intro ks h
    simp only [keyFold]
    by_cases hc : c ∈ ks
    · rw [if_pos hc]; exact ih ks h
    · rw [if_neg hc]
      exact ih _ (by simp [List.nodup_append, h, hc])

theorem dictInsert_values (d : List (String × ℚ)) (k : String) (v w : ℚ)
    (hd : ∀ p ∈ d, p.2 = w) (hv : v = w) : ∀ p ∈ dictInsert d k v, p.2 = w := by
  intro p hp
  unfold dictInsert at hp
  split at hp
  · obtain ⟨q, hq, hqe⟩ := List.mem_map.mp hp
    by_cases h : q.1 = k
    · rw [if_pos h] at hqe
      rw [← hqe]
      exact hv
    · rw [if_neg h] at hqe
      rw [← hqe]
      exact hd q hq
  · rcases List.mem_append.mp hp with h | h
    · exact hd p h
    · rw [List.mem_singleton.mp h]
      exact hv

theorem allocGo_values (cs : List String) :
    ∀ (d : List (String × ℚ)) (v : ℚ), (∀ p ∈ d, p.2 = v) → cs ≠ [] →
    ∀ p ∈ allocGo d (v * (cs.length : ℚ)) cs, p.2 = v := by
  induction cs with
  | nil => intro d v _ h; exact absurd rfl h
  | cons c rest ih =>
    intro d v hd _
    match rest, ih with
    | [], _ =>
      intro p hp
      simp only [allocGo] at hp
      exact dictInsert_values d c _ v hd (by norm_num) p hp
    | r :: rs, ih =>
      have hshare : v * (((c :: r :: rs).length : ℚ)) / (((r :: rs).length : ℚ) + 1) = v := by
        field_simp
      intro p hp
      simp only [allocGo, hshare] at hp
      have hrem : v * (((c :: r :: rs).length : ℚ)) - v = v * (((r :: rs).length : ℚ)) := by
        push_cast [List.length_cons]
        ring
      rw [hrem] at hp
      exact ih (dictInsert d c v) v (dictInsert_values d c v v hd rfl) (by simp) p hp

theorem sum_snd_all_eq (l : List (String × ℚ)) (v : ℚ) (h : ∀ p ∈ l, p.2 = v) :
    (l.map Prod.snd).sum = (l.length : ℚ) * v := by
  induction l with
  | nil => simp
  | cons p rest ih =>
    simp only [List.map_cons, List.sum_cons, List.length_cons]
    rw [h p (by simp), ih (fun q hq => h q (by simp [hq]))]
    push_cast
    ring

theorem lookup_map_const (l : List String) (a : String) (v : ℚ) (h : a ∈ l) :
    (l.map (fun c => (c, v))).lookup a = some v := by
  induction l with
  | nil => cases h
  | cons c rest ih =>
    by_cases hac : a = c
    · subst hac
      simp [List.lookup]
    · have hbeq : (a == c) = false := beq_eq_false_iff_ne.mpr hac
      simp only [List.map_cons, List.lookup, hbeq]
      exact ih ((List.mem_cons.mp h).resolve_left hac)

theorem lookup_map_const_none (l : List String) (a : String) (v : ℚ) (h : a ∉ l) :
    (l.map (fun c => (c, v))).lookup a = none := by
  induction l with
  | nil => rfl
  | cons c rest ih =>
    have hac : a ≠ c := fun hh => h (by simp [hh])
    have hbeq : (a == c) = false := beq_eq_false_iff_ne.mpr hac
    simp only [List.map_cons, List.lookup, hbeq]
    exact ih (fun hh => h (by simp [hh]))

/-! ## Claim theorems for the Budget Allocator -/

/-- **C1.** For every Priority Selection of `n` pairwise-distinct category
labels, the Budget Allocator returns an Allocation Map of size `n` in which
every label maps to exactly `1/n` (exact arithmetic) and the values sum
to `1`; for `n = 0` it returns an empty Allocation Map (the loop body, and
hence every division, is guarded by `num_categories > 0`). -/
theorem budgetAllocator_uniform (cats : List String) (hnd : cats.Nodup) :
    (budgetAllocator cats).length = cats.length
    ∧ (∀ l ∈ cats, (budgetAllocator cats).lookup l = some (1 / (cats.length : ℚ)))
    ∧ (cats ≠ [] → ((budgetAllocator cats).map Prod.snd).sum = 1)
    ∧ (cats = [] → budgetAllocator cats = []) := by
  rw [budgetAllocator_nodup_eq cats hnd]
  refine ⟨by simp, ?_, ?_, ?_⟩
  · intro l hl
    exact lookup_map_const cats l _ hl
  · intro hne
    have hlen : ((cats.length : ℚ)) ≠ 0 :=
      (Nat.cast_pos.mpr (List.length_pos.mpr hne)).ne'
    rw [sum_snd_all_eq _ (1 / (cats.length : ℚ)) ?_]
    · field_simp
    · intro p hp
      obtain ⟨c, _, hc⟩ := List.mem_map.mp hp
      rw [← hc]
  · intro h
    subst h
    rfl

theorem budgetAllocator_uniform_witness :
    (["Savings", "Investment", "Entertainment"] : List String).Nodup
    ∧ ((budgetAllocator ["Savings", "Investment", "Entertainment"]).length = 3
      ∧ (∀ l ∈ (["Savings", "Investment", "Entertainment"] : List String),
          (budgetAllocator ["Savings", "Investment", "Entertainment"]).lookup l
            = some (1 / ((["Savings", "Investment", "Entertainment"] : List String).length : ℚ)))
      ∧ ((["Savings", "Investment", "Entertainment"] : List String) ≠ [] →
          ((budgetAllocator ["Savings", "Investment", "Entertainment"]).map Prod.snd).sum = 1)
      ∧ ((["Savings", "Investment", "Entertainment"] : List String) = [] →
          budgetAllocator ["Savings", "Investment", "Entertainment"] = [])) :=
  ⟨by decide, budgetAllocator_uniform ["Savings", "Investment", "Entertainment"] (by decide)⟩

/-- **C6.** The share a label receives does not depend on its position in
the Priority Selection: for pairwise-distinct labels, permuting the input
list leaves the fraction looked up for every label unchanged (each is
`1/n` in exact rational arithmetic). -/
theorem budgetAllocator_order_independent (cats₁ cats₂ : List String)
    (hperm : cats₁.Perm cats₂) (hnd : cats₁.Nodup) :
    ∀ l : String, (budgetAllocator cats₁).lookup l = (budgetAllocator cats₂).lookup l := by
  intro l
  have hnd₂ : cats₂.Nodup := hperm.nodup_iff.mp hnd
  rw [budgetAllocator_nodup_eq _ hnd, budgetAllocator_nodup_eq _ hnd₂, hperm.length_eq]
  by_cases hl : l ∈ cats₂
  · rw [lookup_map_const _ _ _ (hperm.mem_iff.mpr hl), lookup_map_const _ _ _ hl]
  · rw [lookup_map_const_none _ _ _ (fun h => hl (hperm.mem_iff.mp h)),
      lookup_map_const_none _ _ _ hl]

theorem budgetAllocator_order_independent_witness :
    (["A", "B"] : List String).Perm ["B", "A"]
    ∧ (["A", "B"] : List String).Nodup
    ∧ ∀ l : String, (budgetAllocator ["A", "B"]).lookup l
        = (budgetAllocator ["B", "A"]).lookup l :=
  ⟨by decide, by decide,
    budgetAllocator_order_independent ["A", "B"] ["B", "A"] (by decide) (by decide)⟩

/-- **C9.** If the Priority Selection repeats a label, the dict assignment
`allocation[category] = ...` overwrites the earlier entry, so the
Allocation Map has strictly fewer entries than the list length; every
stored value is still `1/n` (`n` the list length), so the values sum to
strictly less than `1`.  In particular `["A", "A"]` yields `{"A": 1/2}`. -/
theorem budgetAllocator_duplicates (cats : List String) (hdup : ¬ cats.Nodup) :
    (budgetAllocator cats).length < cats.length
    ∧ (∀ p ∈ budgetAllocator cats, p.2 = 1 / (cats.length : ℚ))
    ∧ ((budgetAllocator cats).map Prod.snd).sum < 1
    ∧ budgetAllocator ["A", "A"] = [("A", 1/2)] := by
  have hne : cats ≠ [] := by
    rintro rfl
    exact hdup List.nodup_nil
  have hpos : 0 < cats.length := List.length_pos.mpr hne
  have hlen : ((cats.length : ℚ)) ≠ 0 := (Nat.cast_pos.mpr hpos).ne'
  have hunfold : budgetAllocator cats = allocGo [] 1 cats := if_pos hpos
  have hone : (1 : ℚ) = (1 / (cats.length : ℚ)) * (cats.length : ℚ) := by
    field_simp
  have hvalues : ∀ p ∈ budgetAllocator cats, p.2 = 1 / (cats.length : ℚ) := by
    have hv := allocGo_values cats [] (1 / (cats.length : ℚ)) (by simp) hne
    rw [← hone] at hv
    rw [hunfold]
    exact hv
  have hltdedup : cats.dedup.length < cats.length := by
    rcases Nat.lt_or_ge cats.dedup.length cats.length with h | h
    · exact h
    · exfalso
      have hle := (List.dedup_sublist cats).length_le
      have heq : cats.dedup.length = cats.length := le_antisymm hle h
      have hdede := (List.dedup_sublist cats).eq_of_length heq
      exact hdup (hdede ▸ cats.nodup_dedup)
  have hkeys : (budgetAllocator cats).map Prod.fst = keyFold [] cats := by
    rw [hunfold, allocGo_map_fst]
    rfl
  have hnodupkeys : (keyFold [] cats).Nodup := keyFold_nodup cats [] List.nodup_nil
  have hcard : (keyFold [] cats).length = cats.dedup.length := by
    rw [← List.toFinset_card_of_nodup hnodupkeys, keyFold_toFinset cats []]
    simp [List.card_toFinset]
  have hlength : (budgetAllocator cats).length < cats.length := by
    have h1 : (budgetAllocator cats).length = ((budgetAllocator cats).map Prod.fst).length :=
      (List.length_map _ _).symm
    rw [h1, hkeys, hcard]
    exact hltdedup
  refine ⟨hlength, hvalues, ?_, by norm_num [budgetAllocator, allocGo, dictInsert]⟩
  rw [sum_snd_all_eq _ (1 / (cats.length : ℚ)) hvalues]
  have hfrac : (0 : ℚ) < 1 / (cats.length : ℚ) :=
    one_div_pos.mpr (Nat.cast_pos.mpr hpos)
  have hcast : ((budgetAllocator cats).length : ℚ) < (cats.length : ℚ) := by
    exact_mod_cast hlength
  calc ((budgetAllocator cats).length : ℚ) * (1 / (cats.length : ℚ))
      < (cats.length : ℚ) * (1 / (cats.length : ℚ)) :=
        mul_lt_mul_of_pos_right hcast hfrac
    _ = 1 := by field_simp

theorem budgetAllocator_duplicates_witness :
    ¬ (["A", "A"] : List String).Nodup
    ∧ ((budgetAllocator ["A", "A"]).length < 2
      ∧ (∀ p ∈ budgetAllocator ["A", "A"], p.2 = 1 / ((["A", "A"] : List String).length : ℚ))
      ∧ ((budgetAllocator ["A", "A"]).map Prod.snd).sum < 1
      ∧ budgetAllocator ["A", "A"] = [("A", 1/2)]) :=
  ⟨by decide, budgetAllocator_duplicates ["A", "A"] (by decide)⟩

/-! ## Category Detector (`display_recommendations`, lines 62–71)

```python
if 'category' in data.columns.str.lower():
    categories = data[data.columns[data.columns.str.lower() == 'category'][0]].unique()
else:
    categorical_columns = data.select_dtypes(include=['object']).columns
    if categorical_columns.empty:
        categories = ["Essential Bills", "Savings", "Investment", "Entertainment", "Shopping"]
    else:
        categories = data[categorical_columns[0]].unique()
```
-/

/-- The fixed fallback Category Set (line 69). -/
def fallbackCategories : List String :=
  ["Essential Bills", "Savings", "Investment", "Entertainment", "Shopping"]

/-- The Category Detector: distinct values of the first column whose
lower-cased name is `"category"`; else distinct values of the first
text-typed (`object`) column; else the fixed fallback labels. -/
def detectCategories (data : Dataset) : List Value :=
  match data.cols.find? (fun c => lowerStr c.name = "category") with
  | some c => pandasUnique c.values
  | none =>
    match data.cols.filter (fun c => c.dtype = DType.text) with
    | [] => fallbackCategories.map Value.str
    | c :: _ => pandasUnique c.values

/-- **C3.** If some column's name, compared case-insensitively, equals
`"category"`, the detector returns the distinct values of the first such
column in order of first appearance; a column named `"Category"` with
values `["Food", "Food", "Rent"]` yields `["Food", "Rent"]`. -/
theorem detectCategories_category_column (data : Dataset)
    (hex : ∃ c ∈ data.cols, lowerStr c.name = "category") :
    (∃ c, data.cols.find? (fun col => lowerStr col.name = "category") = some c
      ∧ lowerStr c.name = "category"
      ∧ detectCategories data = pandasUnique c.values)
    ∧ detectCategories
        ⟨[⟨"Category", DType.text, [Value.str "Food", Value.str "Food", Value.str "Rent"]⟩]⟩
      = [Value.str "Food", Value.str "Rent"] := by
  constructor
  · have hsome : (data.cols.find? (fun col => lowerStr col.name = "category")).isSome := by
      rw [List.find?_isSome]
      obtain ⟨c, hc, hname⟩ := hex
      exact ⟨c, hc, by simp [hname]⟩
    obtain ⟨c, hc⟩ := Option.isSome_iff_exists.mp hsome
    refine ⟨c, hc, ?_, ?_⟩
    · have := List.find?_some hc
      simpa using this
    · unfold detectCategories
      rw [hc]
  · decide

theorem detectCategories_category_column_witness :
    (∃ c ∈ (Dataset.mk [⟨"Category", DType.text,
        [Value.str "Food", Value.str "Food", Value.str "Rent"]⟩]).cols,
      lowerStr c.name = "category")
    ∧ ((∃ c, (Dataset.mk [⟨"Category", DType.text,
          [Value.str "Food", Value.str "Food", Value.str "Rent"]⟩]).cols.find?
            (fun col => lowerStr col.name = "category") = some c
        ∧ lowerStr c.name = "category"
        ∧ detectCategories ⟨[⟨"Category", DType.text,
            [Value.str "Food", Value.str "Food", Value.str "Rent"]⟩]⟩ = pandasUnique c.values)
      ∧ detectCategories
          ⟨[⟨"Category", DType.text, [Value.str "Food", Value.str "Food", Value.str "Rent"]⟩]⟩
        = [Value.str "Food", Value.str "Rent"]) :=
  ⟨by decide,
    detectCategories_category_column
      ⟨[⟨"Category", DType.text, [Value.str "Food", Value.str "Food", Value.str "Rent"]⟩]⟩
      (by decide)⟩

/-- Counterexample to **C2** as stated: a dataset whose only column is a
numeric column named `"category"` has no text-typed column, yet the
detector takes the name-match branch and returns that column's (empty)
distinct-value list — not the fallback set.  So "no text-typed column"
does not characterise the fallback. -/
theorem detectCategories_fallback_not_iff :
    (∀ c ∈ (Dataset.mk [⟨"category", DType.numeric, []⟩]).cols, c.dtype ≠ DType.text)
    ∧ detectCategories ⟨[⟨"category", DType.numeric, []⟩]⟩ ≠ fallbackCategories.map Value.str
    ∧ detectCategories ⟨[⟨"category", DType.numeric, []⟩]⟩ = [] := by
  decide

/-- **C2 (amended).** The detector returns the fallback set whenever the
dataset has no column named `"category"` (case-insensitively) *and* no
text-typed column; a `"category"`-named column takes the name-match
branch even when no text-typed column exists.  For every zero-row
dataset that still has a `"category"`-named or text-typed column, it
returns the empty Category Set, not the fallback. -/
theorem detectCategories_fallback_cond (data : Dataset) :
    ((∀ c ∈ data.cols, lowerStr c.name ≠ "category" ∧ c.dtype ≠ DType.text) →
      detectCategories data = fallbackCategories.map Value.str)
    ∧ ((∀ c ∈ data.cols, c.values = []) →
        (∃ c ∈ data.cols, lowerStr c.name = "category" ∨ c.dtype = DType.text) →
        detectCategories data = [] ∧ fallbackCategories.map Value.str ≠ []) := by
  constructor
  · intro h
    have hfind : data.cols.find? (fun c => lowerStr c.name = "category") = none := by
      rw [List.find?_eq_none]
      intro c hc
      simp [(h c hc).1]
    have hfilter : data.cols.filter (fun c => c.dtype = DType.text) = [] := by
      rw [List.filter_eq_nil_iff]
      intro c hc
      simp [(h c hc).2]
    unfold detectCategories
    rw [hfind, hfilter]
  · intro hzero hex
    refine ⟨?_, by decide⟩
    unfold detectCategories
    cases hfind : data.cols.find? (fun c => lowerStr c.name = "category") with
    | some c =>
      have hmem : c ∈ data.cols := List.mem_of_find?_eq_some hfind
      show pandasUnique c.values = []
      rw [hzero c hmem]
      rfl
    | none =>
      cases hfilter : data.cols.filter (fun c => c.dtype = DType.text) with
      | cons c rest =>
        have hmem : c ∈ data.cols.filter (fun c => c.dtype = DType.text) := by
          rw [hfilter]
          exact List.mem_cons_self c rest
        have hmem' : c ∈ data.cols := (List.mem_filter.mp hmem).1
        show pandasUnique c.values = []
        rw [hzero c hmem']
        rfl
      | nil =>
        exfalso
        obtain ⟨c, hc, hdisj⟩ := hex
        rcases hdisj with hname | htext
        · have := List.find?_eq_none.mp hfind c hc
          simp [hname] at this
        · have := List.filter_eq_nil_iff.mp hfilter c hc
          simp [htext] at this

theorem detectCategories_fallback_cond_witness :
    ((∀ c ∈ (Dataset.mk [⟨"amount", DType.numeric, [Value.num 1]⟩]).cols,
        lowerStr c.name ≠ "category" ∧ c.dtype ≠ DType.text)
      ∧ detectCategories ⟨[⟨"amount", DType.numeric, [Value.num 1]⟩]⟩
          = fallbackCategories.map Value.str)
    ∧ ((∀ c ∈ (Dataset.mk [⟨"Type", DType.text, []⟩]).cols, c.values = [])
      ∧ (∃ c ∈ (Dataset.mk [⟨"Type", DType.text, []⟩]).cols,
          lowerStr c.name = "category" ∨ c.dtype = DType.text)
      ∧ detectCategories ⟨[⟨"Type", DType.text, []⟩]⟩ = []
      ∧ fallbackCategories.map Value.str ≠ []) :=
  ⟨⟨by decide, (detectCategories_fallback_cond ⟨[⟨"amount", DType.numeric, [Value.num 1]⟩]⟩).1
      (by decide)⟩,
    by decide, by decide,
    (detectCategories_fallback_cond ⟨[⟨"Type", DType.text, []⟩]⟩).2 (by decide) (by decide)⟩

/-! ## Recommendation Generator (`display_recommendations`, lines 83–96)

```python
for category in priority_categories:
    st.write(f"📊 {category} Recommendations:")
    if "saving" in category.lower():
        st.write(f"- Set up automatic transfers to savings account")
        st.write(f"- To reach your ${savings_goal} monthly goal, save ${savings_goal/30:.2f} daily")
    elif "invest" in category.lower():
        ...
    elif "bill" in category.lower():
        ...
    else:
        ...
```
-/

/-- Round a rational half-to-even to an integer, as Python's fixed-point
float formatting does at ties (exact for the values in the claims). -/
def roundHalfEven (q : ℚ) : ℤ :=
  if q - ⌊q⌋ < 1/2 then ⌊q⌋
  else if 1/2 < q - ⌊q⌋ then ⌊q⌋ + 1
  else if ⌊q⌋ % 2 = 0 then ⌊q⌋ else ⌊q⌋ + 1

/-- Python `f"{x:.2f}"` for nonnegative `x`, modelled over exact
rationals: round to a whole number of cents and print two decimals. -/
def format2 (q : ℚ) : String :=
  let cents := roundHalfEven (q * 100)
  toString (cents / 100) ++ "." ++ (if cents % 100 < 10 then "0" else "")
    ++ toString (cents % 100)

/-- The `st.write` header preceding each category's advice (line 84). -/
def headerLine (category : String) : String := "📊 " ++ category ++ " Recommendations:"

/-- The savings branch (lines 85–87). -/
def savingsAdvice (savings_goal : ℕ) : List String :=
  ["- Set up automatic transfers to savings account",
   "- To reach your $" ++ toString savings_goal ++ " monthly goal, save $"
     ++ format2 ((savings_goal : ℚ) / 30) ++ " daily"]

/-- The investment branch (lines 88–90). -/
def investAdvice : List String :=
  ["- Consider low-cost index funds",
   "- Diversify your investment portfolio"]

/-- The bills branch (lines 91–93). -/
def billAdvice : List String :=
  ["- Set up automatic bill payments",
   "- Review subscriptions monthly"]

/-- The generic fallback branch (lines 94–96). -/
def genericAdvice (category : String) : List String :=
  ["- Create a budget for " ++ category,
   "- Track " ++ lowerStr category ++ " expenses regularly"]

/-- The Recommendation Generator for one category: the header line, then
the advice of the first keyword rule (`"saving"`, `"invest"`, `"bill"`,
else generic) matching the lower-cased label. -/
def recommend (category : String) (savings_goal : ℕ) : List String :=
  headerLine category ::
  (if strContainsSub (lowerStr category) "saving" then savingsAdvice savings_goal
   else if strContainsSub (lowerStr category) "invest" then investAdvice
   else if strContainsSub (lowerStr category) "bill" then billAdvice
   else genericAdvice category)

theorem format2_thirty : format2 (((900 : ℕ) : ℚ) / 30) = "30.00" := by
  unfold format2
  rw [show (((900 : ℕ) : ℚ) / 30) * 100 = ((3000 : ℤ) : ℚ) by norm_num]
  rw [show roundHalfEven ((3000 : ℤ) : ℚ) = 3000 by norm_num [roundHalfEven]]
  decide

/-- **C4.** Keyword dispatch is by case-insensitive substring match in
the fixed order `"saving"`, `"invest"`, `"bill"`, else generic, and only
the first matching rule fires; `"Savings Goal"` with monthly goal `900`
yields a line containing `"30.00"` (`900 / 30` at two decimals), and the
unmatched label `"Groceries"` yields the generic advice mentioning it. -/
theorem recommend_dispatch (category : String) (g : ℕ) :
    (strContainsSub (lowerStr category) "saving" = true →
      recommend category g = headerLine category :: savingsAdvice g)
    ∧ (strContainsSub (lowerStr category) "saving" = false →
       strContainsSub (lowerStr category) "invest" = true →
      recommend category g = headerLine category :: investAdvice)
    ∧ (strContainsSub (lowerStr category) "saving" = false →
       strContainsSub (lowerStr category) "invest" = false →
       strContainsSub (lowerStr category) "bill" = true →
      recommend category g = headerLine category :: billAdvice)
    ∧ (strContainsSub (lowerStr category) "saving" = false →
       strContainsSub (lowerStr category) "invest" = false →
       strContainsSub (lowerStr category) "bill" = false →
      recommend category g = headerLine category :: genericAdvice category)
    ∧ (∃ line ∈ recommend "Savings Goal" 900, strContainsSub line "30.00" = true)
    ∧ (∃ line ∈ recommend "Groceries" g, strContainsSub line "Groceries" = true) := by
  refine ⟨?_, ?_, ?_, ?_, ?_, ?_⟩
  · intro h1
    simp [recommend, h1]
  · intro h1 h2
    simp [recommend, h1, h2]
  · intro h1 h2 h3
    simp [recommend, h1, h2, h3]
  · intro h1 h2 h3
    simp [recommend, h1, h2, h3]
  · have hcond : strContainsSub (lowerStr "Savings Goal") "saving" = true := by decide
    have hadv : savingsAdvice 900
        = ["- Set up automatic transfers to savings account",
           "- To reach your $900 monthly goal, save $30.00 daily"] := by
      unfold savingsAdvice
      rw [format2_thirty]
      decide
    refine ⟨"- To reach your $900 monthly goal, save $30.00 daily", ?_, by decide⟩
    simp [recommend, hcond, hadv]
  · have h1 : strContainsSub (lowerStr "Groceries") "saving" = false := by decide
    have h2 : strContainsSub (lowerStr "Groceries") "invest" = false := by decide
    have h3 : strContainsSub (lowerStr "Groceries") "bill" = false := by decide
    refine ⟨"- Create a budget for Groceries", ?_, by decide⟩
    simp [recommend, h1, h2, h3, genericAdvice]

theorem recommend_dispatch_witness :
    (strContainsSub (lowerStr "Savings Goal") "saving" = true
      ∧ recommend "Savings Goal" 900 = headerLine "Savings Goal" :: savingsAdvice 900)
    ∧ (strContainsSub (lowerStr "Bills") "saving" = false
      ∧ strContainsSub (lowerStr "Bills") "invest" = false
      ∧ strContainsSub (lowerStr "Bills") "bill" = true
      ∧ recommend "Bills" 900 = headerLine "Bills" :: billAdvice) :=
  ⟨⟨by decide, (recommend_dispatch "Savings Goal" 900).1 (by decide)⟩,
   ⟨by decide, by decide, by decide,
     (recommend_dispatch "Bills" 900).2.2.1 (by decide) (by decide) (by decide)⟩⟩

/-! ## PDF extraction (`process_pdf`, lines 13–23)

```python
def process_pdf(file):
    try:
        df_list = tabula.read_pdf(file, pages="all", multiple_tables=True, stream=True)
        if df_list:
            return pd.concat(df_list, ignore_index=True)
        else:
            st.error("No tables found in the PDF.")
            return None
    except Exception as e:
        st.error(f"Error reading PDF: {e}")
        return None
```
-/

/-- Outcome of the external `tabula.read_pdf` call: the list of
extracted tables, or a raised exception carrying its message. -/
inductive TabulaResult where
  | tables (dfs : List Dataset)
  | exc (msg : String)
deriving DecidableEq, Repr

/-- Row count of a dataset (length of its first column). -/
def nrows (d : Dataset) : ℕ :=
  ((d.cols.head?).map (fun c => c.values.length)).getD 0

/-- The values a table contributes to a named column during
concatenation: its own column's values, or `NaN` for each of its rows
when it lacks the column. -/
def colValuesOrNaN (d : Dataset) (n : String) : List Value :=
  match d.cols.find? (fun c => c.name = n) with
  | some c => c.values
  | none => List.replicate (nrows d) Value.nan

/-- Result dtype of a concatenated column: that of the first table
providing it (text when `NaN`-filling widens the type is not modelled —
no claim inspects post-concatenation dtypes). -/
def colDTypeFor (ts : List Dataset) (n : String) : DType :=
  match ts.findSome? (fun t => (t.cols.find? (fun c => c.name = n)).map Column.dtype) with
  | some dt => dt
  | none => DType.text

/-- Model of the external `pd.concat(df_list, ignore_index=True)`:
row-wise concatenation over the union of column names in order of first
appearance, missing cells filled with `NaN`. -/
def concatTables (ts : List Dataset) : Dataset :=
  let names := pandasUnique ((ts.map (fun t => t.cols.map Column.name)).flatten)
  ⟨names.map (fun n => ⟨n, colDTypeFor ts n, (ts.map (fun t => colValuesOrNaN t n)).flatten⟩)⟩

/-- `process_pdf` (lines 13–23): Python truthiness of `df_list` is
non-emptiness; an exception from the extractor is caught and reported
(`st.error`), never re-raised, and no retry is attempted — the function
is total and returns at most one error message. -/
def process_pdf (r : TabulaResult) : Option Dataset × List String :=
  match r with
  | .tables dfs =>
      if dfs.isEmpty then (none, ["No tables found in the PDF."])
      else (some (concatTables dfs), [])
  | .exc e => (none, ["Error reading PDF: " ++ e])

/-- **C7.** The PDF path concatenates the extracted tables row-wise into
one dataset, or — exactly when the extractor yields zero tables or
raises — reports a visible error and produces no dataset; the exception
is caught (the function is total, so the session never crashes) and
nothing is retried. -/
theorem process_pdf_contract (r : TabulaResult) :
    (∀ dfs, r = TabulaResult.tables dfs → dfs ≠ [] →
      process_pdf r = (some (concatTables dfs), []))
    ∧ (r = TabulaResult.tables [] →
      process_pdf r = (none, ["No tables found in the PDF."]))
    ∧ (∀ e, r = TabulaResult.exc e →
      process_pdf r = (none, ["Error reading PDF: " ++ e]))
    ∧ ((process_pdf r).1 = none ↔
        r = TabulaResult.tables [] ∨ ∃ e, r = TabulaResult.exc e) := by
  refine ⟨?_, ?_, ?_, ?_⟩
  · rintro dfs rfl hne
    simp [process_pdf, hne]
  · rintro rfl
    simp [process_pdf]
  · rintro e rfl
    simp [process_pdf]
  · cases r with
    | tables dfs =>
      cases dfs with
      | nil => simp [process_pdf]
      | cons d ds => simp [process_pdf]
    | exc e => simp [process_pdf]

theorem process_pdf_contract_witness :
    process_pdf (TabulaResult.exc "corrupt file")
      = (none, ["Error reading PDF: " ++ "corrupt file"])
    ∧ process_pdf (TabulaResult.tables [⟨[⟨"a", DType.numeric, [Value.num 1]⟩]⟩])
      = (some (concatTables [⟨[⟨"a", DType.numeric, [Value.num 1]⟩]⟩]), []) :=
  ⟨(process_pdf_contract (TabulaResult.exc "corrupt file")).2.2.1 "corrupt file" rfl,
   (process_pdf_contract (TabulaResult.tables [⟨[⟨"a", DType.numeric, [Value.num 1]⟩]⟩])).1
     [⟨[⟨"a", DType.numeric, [Value.num 1]⟩]⟩] rfl (by simp)⟩

/-! ## Data Loader (`load_data`, lines 26–33)

```python
def load_data(file):
    if file.name.endswith(".csv"):
        return pd.read_csv(file)
    elif file.name.endswith(".pdf"):
        return process_pdf(file)
    else:
        st.error("Unsupported file format. Please upload a CSV or PDF file.")
        return None
```
-/

/-- An uploaded file handle: its name, plus what each external parser
would produce from its bytes (`pd.read_csv`, `tabula.read_pdf`). -/
structure UploadedFile where
  name : String
  csvResult : Dataset
  pdfResult : TabulaResult

/-- The message of the unsupported-format error (line 32). -/
def unsupportedMsg : String := "Unsupported file format. Please upload a CSV or PDF file."

/-- `load_data` (lines 26–33): dispatch on the file-name suffix,
checked with Python's case-sensitive `str.endswith`. -/
def load_data (f : UploadedFile) : Option Dataset × List String :=
  if endsWithStr f.name ".csv" then (some f.csvResult, [])
  else if endsWithStr f.name ".pdf" then process_pdf f.pdfResult
  else (none, [unsupportedMsg])

/-- **C5.** The Loader dispatches on the file-name extension: `.csv`
files go to the CSV parser, `.pdf` files to the PDF extractor, and any
other name — such as `"report.txt"` — produces the user-visible
unsupported-format error and no dataset. -/
theorem load_data_dispatch (f : UploadedFile) :
    (endsWithStr f.name ".csv" = true → load_data f = (some f.csvResult, []))
    ∧ (endsWithStr f.name ".csv" = false → endsWithStr f.name ".pdf" = true →
        load_data f = process_pdf f.pdfResult)
    ∧ (endsWithStr f.name ".csv" = false → endsWithStr f.name ".pdf" = false →
        load_data f = (none, [unsupportedMsg]))
    ∧ (f.name = "report.txt" → load_data f = (none, [unsupportedMsg])) := by
  refine ⟨?_, ?_, ?_, ?_⟩
  · intro h1
    simp [load_data, h1]
  · intro h1 h2
    simp [load_data, h1, h2]
  · intro h1 h2
    simp [load_data, h1, h2]
  · intro hname
    have h1 : endsWithStr f.name ".csv" = false := by rw [hname]; decide
    have h2 : endsWithStr f.name ".pdf" = false := by rw [hname]; decide
    simp [load_data, h1, h2]

theorem load_data_dispatch_witness :
    load_data ⟨"report.txt", ⟨[]⟩, TabulaResult.tables []⟩ = (none, [unsupportedMsg])
    ∧ load_data ⟨"budget.csv", ⟨[]⟩, TabulaResult.tables []⟩
        = (some (⟨[]⟩ : Dataset), []) :=
  ⟨(load_data_dispatch ⟨"report.txt", ⟨[]⟩, TabulaResult.tables []⟩).2.2.2 rfl,
   (load_data_dispatch ⟨"budget.csv", ⟨[]⟩, TabulaResult.tables []⟩).1 (by decide)⟩

/-! ### Case-sensitivity of the extension dispatch (C10) -/

theorem string_data_inj {s t : String} (h : s.data = t.data) : s = t := by
  cases s
  cases t
  exact congrArg String.mk h

theorem isPrefixOf_eq_true_iff {α : Type} [BEq α] [LawfulBEq α] (l₁ l₂ : List α) :
    l₁.isPrefixOf l₂ = true ↔ l₁ <+: l₂ := by
  induction l₁ generalizing l₂ with
  | nil => simp [List.isPrefixOf]
  | cons a as ih =>
    cases l₂ with
    | nil => simp
    | cons b bs =>
      rw [List.isPrefixOf_cons₂, List.cons_prefix_cons]
      simp [ih]

theorem isSuffixOf_eq_true_iff {α : Type} [BEq α] [LawfulBEq α] (l₁ l₂ : List α) :
    l₁.isSuffixOf l₂ = true ↔ l₁ <:+ l₂ := by
  rw [List.isSuffixOf, isPrefixOf_eq_true_iff]
  exact List.reverse_prefix

theorem endsWithStr_iff (s t : String) : endsWithStr s t = true ↔ t.data <:+ s.data := by
  unfold endsWithStr
  exact isSuffixOf_eq_true_iff _ _

/-- **C10.** The extension dispatch is a case-sensitive suffix check:
any file whose name ends in a case variant of `".csv"` or `".pdf"` other
than the exact lowercase string — `".CSV"`, `".PDF"`, `".Csv"`, … —
takes the unsupported-format branch and produces no dataset. -/
theorem load_data_case_sensitive (f : UploadedFile) (v : String)
    (hlow : lowerStr v = ".csv" ∨ lowerStr v = ".pdf")
    (hvc : v ≠ ".csv") (hvp : v ≠ ".pdf")
    (hends : endsWithStr f.name v = true) :
    load_data f = (none, [unsupportedMsg]) := by
  have hlen : v.data.length = 4 := by
    have hmap : (lowerStr v).data.length = v.data.length := by
      simp [lowerStr]
    rcases hlow with h | h <;> (rw [h] at hmap; exact hmap.symm)
  have hsuf : v.data <:+ f.name.data := (endsWithStr_iff _ _).mp hends
  have hnotcsv : endsWithStr f.name ".csv" = false := by
    rw [Bool.eq_false_iff]
    intro hc
    have hsufc : (".csv" : String).data <:+ f.name.data := (endsWithStr_iff _ _).mp hc
    have hvsuf : v.data <:+ (".csv" : String).data :=
      List.suffix_of_suffix_length_le hsuf hsufc (by rw [hlen]; decide)
    have heq : v.data = (".csv" : String).data :=
      hvsuf.eq_of_length (by rw [hlen]; decide)
    exact hvc (string_data_inj heq)
  have hnotpdf : endsWithStr f.name ".pdf" = false := by
    rw [Bool.eq_false_iff]
    intro hc
    have hsufp : (".pdf" : String).data <:+ f.name.data := (endsWithStr_iff _ _).mp hc
    have hvsuf : v.data <:+ (".pdf" : String).data :=
      List.suffix_of_suffix_length_le hsuf hsufp (by rw [hlen]; decide)
    have heq : v.data = (".pdf" : String).data :=
      hvsuf.eq_of_length (by rw [hlen]; decide)
    exact hvp (string_data_inj heq)
  simp [load_data, hnotcsv, hnotpdf]

theorem load_data_case_sensitive_witness :
    ((lowerStr ".CSV" = ".csv" ∨ lowerStr ".CSV" = ".pdf")
      ∧ ".CSV" ≠ ".csv" ∧ ".CSV" ≠ ".pdf"
      ∧ endsWithStr "data.CSV" ".CSV" = true
      ∧ load_data ⟨"data.CSV", ⟨[]⟩, TabulaResult.tables []⟩ = (none, [unsupportedMsg]))
    ∧ ((lowerStr ".Pdf" = ".csv" ∨ lowerStr ".Pdf" = ".pdf")
      ∧ ".Pdf" ≠ ".csv" ∧ ".Pdf" ≠ ".pdf"
      ∧ endsWithStr "report.Pdf" ".Pdf" = true
      ∧ load_data ⟨"report.Pdf", ⟨[]⟩, TabulaResult.tables []⟩ = (none, [unsupportedMsg])) :=
  ⟨⟨Or.inl (by decide), by decide, by decide, by decide,
     load_data_case_sensitive ⟨"data.CSV", ⟨[]⟩, TabulaResult.tables []⟩ ".CSV"
       (Or.inl (by decide)) (by decide) (by decide) (by decide)⟩,
   ⟨Or.inr (by decide), by decide, by decide, by decide,
     load_data_case_sensitive ⟨"report.Pdf", ⟨[]⟩, TabulaResult.tables []⟩ ".Pdf"
       (Or.inr (by decide)) (by decide) (by decide) (by decide)⟩⟩

/-! ## Chart Builder (`create_dashboard`, lines 122–147)

```python
def create_dashboard(data):
    chart_type = st.sidebar.selectbox("Select Chart Type", [...])
    numeric_columns = data.select_dtypes(include=["float", "int"]).columns.tolist()
    if not numeric_columns:
        st.error("No numeric columns found for visualization.")
        return
    x_axis = st.sidebar.selectbox("X-Axis", options=numeric_columns)
    y_axis = st.sidebar.selectbox("Y-Axis", options=numeric_columns)
    if chart_type == "Bar Chart": fig = px.bar(data, x=x_axis, y=y_axis, ...)
    ...
```
-/

/-- The five chart types of the sidebar selector (line 124). -/
inductive ChartType where
  | bar
  | line
  | pie
  | scatter3d
  | area
deriving DecidableEq, Repr

/-- An abstract chart specification: the chart type and its data
bindings (column names); palettes and rendering are presentation-layer
and not modelled. -/
structure ChartSpec where
  kind : ChartType
  x : Option String
  y : Option String
  z : Option String
  names : Option String
  color : Option String
deriving DecidableEq, Repr

/-- `data.select_dtypes(include=["float", "int"]).columns.tolist()`
(line 125). -/
def numericColumnNames (d : Dataset) : List String :=
  (d.cols.filter (fun c => c.dtype = DType.numeric)).map Column.name

/-- `create_dashboard` (lines 122–147).  Each `st.selectbox` returns one
of its options; the user's choices are modelled as indices reduced
modulo the number of options (`xSel`, `ySel`, `zSel` over the numeric
columns, `nameSel` over all columns for the Pie names column).  The
numeric-columns check runs before any chart constructor: with no
numeric column the function returns early and produces no chart. -/
def create_dashboard (d : Dataset) (ct : ChartType) (xSel ySel zSel nameSel : ℕ) :
    Option ChartSpec :=
  let nc := numericColumnNames d
  if nc.isEmpty then none
  else
    let x := nc.getD (xSel % nc.length) ""
    let y := nc.getD (ySel % nc.length) ""
    some (match ct with
      | ChartType.bar => ⟨ChartType.bar, some x, some y, none, none, none⟩
      | ChartType.line => ⟨ChartType.line, some x, some y, none, none, none⟩
      | ChartType.pie =>
          ⟨ChartType.pie, none, some y, none,
            some ((d.cols.map Column.name).getD (nameSel % d.cols.length) ""), none⟩
      | ChartType.scatter3d =>
          ⟨ChartType.scatter3d, some x, some y, some (nc.getD (zSel % nc.length) ""),
            none, (d.cols.map Column.name).head?⟩
      | ChartType.area => ⟨ChartType.area, some x, some y, none, none, none⟩)

theorem getD_mod_mem (l : List String) (i : ℕ) (h : l ≠ []) :
    l.getD (i % l.length) "" ∈ l := by
  have hlen : 0 < l.length := List.length_pos.mpr h
  have hi : i % l.length < l.length := Nat.mod_lt _ hlen
  simp only [List.getD_eq_getElem?_getD, List.getElem?_eq_getElem hi, Option.getD_some]
  exact List.getElem_mem hi

/-- **C8.** With no numeric-typed column the Chart Builder reports the
error and constructs no chart specification; with at least one numeric
column, every x/y/z axis binding of the produced specification is drawn
from the numeric column names (the Pie names column and the 3D-scatter
color column intentionally range over all columns). -/
theorem create_dashboard_numeric_axes (d : Dataset) (ct : ChartType)
    (xSel ySel zSel nameSel : ℕ) :
    (numericColumnNames d = [] → create_dashboard d ct xSel ySel zSel nameSel = none)
    ∧ (∀ s, create_dashboard d ct xSel ySel zSel nameSel = some s →
        (∀ v, s.x = some v → v ∈ numericColumnNames d)
        ∧ (∀ v, s.y = some v → v ∈ numericColumnNames d)
        ∧ (∀ v, s.z = some v → v ∈ numericColumnNames d)) := by
  constructor
  · intro h
    simp [create_dashboard, List.isEmpty_iff.mpr h]
  · intro s hs
    by_cases hnc : numericColumnNames d = []
    · simp [create_dashboard, List.isEmpty_iff.mpr hnc] at hs
    · have hx := getD_mod_mem (numericColumnNames d) xSel hnc
      have hy := getD_mod_mem (numericColumnNames d) ySel hnc
      have hz := getD_mod_mem (numericColumnNames d) zSel hnc
      have hempty : (numericColumnNames d).isEmpty = false := by
        simpa [List.isEmpty_iff] using hnc
      simp only [create_dashboard, hempty, Bool.false_eq_true, if_false] at hs
      cases ct with
      | bar =>
        rw [Option.some.injEq] at hs
        subst hs
        exact ⟨fun v hv => Option.some.inj hv ▸ hx,
               fun v hv => Option.some.inj hv ▸ hy,
               fun v hv => Option.noConfusion hv⟩
      | line =>
        rw [Option.some.injEq] at hs
        subst hs
        exact ⟨fun v hv => Option.some.inj hv ▸ hx,
               fun v hv => Option.some.inj hv ▸ hy,
               fun v hv => Option.noConfusion hv⟩
      | pie =>
        rw [Option.some.injEq] at hs
        subst hs
        exact ⟨fun v hv => Option.noConfusion hv,
               fun v hv => Option.some.inj hv ▸ hy,
               fun v hv => Option.noConfusion hv⟩
      | scatter3d =>
        rw [Option.some.injEq] at hs
        subst hs
        exact ⟨fun v hv => Option.some.inj hv ▸ hx,
               fun v hv => Option.some.inj hv ▸ hy,
               fun v hv => Option.some.inj hv ▸ hz⟩
      | area =>
        rw [Option.some.injEq] at hs
        subst hs
        exact ⟨fun v hv => Option.some.inj hv ▸ hx,
               fun v hv => Option.some.inj hv ▸ hy,
               fun v hv => Option.noConfusion hv⟩

theorem create_dashboard_numeric_axes_witness :
    (numericColumnNames ⟨[⟨"label", DType.text, []⟩]⟩ = []
      ∧ create_dashboard ⟨[⟨"label", DType.text, []⟩]⟩ ChartType.bar 0 0 0 0 = none)
    ∧ (create_dashboard ⟨[⟨"amount", DType.numeric, []⟩]⟩ ChartType.bar 0 0 0 0
        = some ⟨ChartType.bar, some "amount", some "amount", none, none, none⟩
      ∧ ((∀ v, (some "amount" : Option String) = some v →
            v ∈ numericColumnNames ⟨[⟨"amount", DType.numeric, []⟩]⟩)
        ∧ (∀ v, (some "amount" : Option String) = some v →
            v ∈ numericColumnNames ⟨[⟨"amount", DType.numeric, []⟩]⟩)
        ∧ (∀ v, (none : Option String) = some v →
            v ∈ numericColumnNames ⟨[⟨"amount", DType.numeric, []⟩]⟩))) :=
  ⟨⟨by decide,
    (create_dashboard_numeric_axes ⟨[⟨"label", DType.text, []⟩]⟩ ChartType.bar 0 0 0 0).1
      (by decide)⟩,
   ⟨by decide,
    (create_dashboard_numeric_axes ⟨[⟨"amount", DType.numeric, []⟩]⟩ ChartType.bar 0 0 0 0).2
      ⟨ChartType.bar, some "amount", some "amount", none, none, none⟩ (by decide)⟩⟩

end SMF
